import Mathlib

-- Verification of the sjcloud-data-transfer transfer engine against its
-- natural-language specification.  Definitions are shallow embeddings of the
-- TypeScript/JavaScript sources (src/app/bin/backend/state.js, the dx module,
-- and the utils module); where a function of the repository is not present
-- under src/, its definition is modelled from the spec and marked as such.

/-- One byte range of a multipart upload plan.  Mirrors `utils.IByteRange`
with inclusive bounds; the source field `end` is a Lean keyword and is named
`stop` here. -/
structure IByteRange where
  start : Nat
  stop : Nat
deriving DecidableEq

/-- Recursive worker for the byte-range planner.  `fuel` bounds the number of
chunks (each iteration consumes `min m remaining` bytes). -/
def byteRangesGo (m : Nat) : Nat → Nat → Nat → List IByteRange
  | 0, _, _ => []
  | fuel + 1, offset, remaining =>
    if remaining = 0 then []
    else
      let chunk := min m remaining
      ⟨offset, offset + chunk - 1⟩ :: byteRangesGo m fuel (offset + chunk) (remaining - chunk)

/-- Modelled from the spec: `utils.byteRanges(size, maximumPartSize)` — the
byte-range planner invoked by `UploadTransfer.prepare` (dx module) is not
present under src/.  Per the spec it yields an ordered, gapless,
non-overlapping sequence of inclusive ranges covering `[0, fileSize)`, each of
size at most `maxPartSize`, successive chunks being as large as allowed; the
spec's worked example is `plan(100000, 30000) =
[0,29999],[30000,59999],[60000,89999],[90000,99999]`. -/
def byteRanges (fileSize maxPartSize : Nat) : List IByteRange :=
  byteRangesGo maxPartSize (fileSize / maxPartSize + 1) 0 fileSize

theorem byteRangesGo_flatten (m : Nat) (hm : 0 < m) :
    ∀ (fuel offset remaining : Nat), remaining ≤ m * fuel →
      ((byteRangesGo m fuel offset remaining).flatMap
          fun r => List.range' r.start (r.stop + 1 - r.start))
        = List.range' offset remaining := by
  intro fuel
  induction fuel with
  | zero =>
    intro offset remaining h
    have h0 : remaining = 0 := by omega
    subst h0
    simp [byteRangesGo]
  | succ fuel ih =>
    intro offset remaining h
    by_cases h0 : remaining = 0
    · subst h0
      simp [byteRangesGo]
    · have hrem : 0 < remaining := Nat.pos_of_ne_zero h0
      have hchunkpos : 0 < min m remaining := lt_min hm hrem
      have hchunkle : min m remaining ≤ m := Nat.min_le_left _ _
      have hchunkler : min m remaining ≤ remaining := Nat.min_le_right _ _
      have hcases : min m remaining = m ∨ min m remaining = remaining := by
        rcases le_total m remaining with hle | hle
        · exact Or.inl (min_eq_left hle)
        · exact Or.inr (min_eq_right hle)
      have hms : m * (fuel + 1) = m * fuel + m := Nat.mul_succ m fuel
      rw [hms] at h
      have hrec : remaining - min m remaining ≤ m * fuel := by
        rcases hcases with hc | hc <;> omega
      simp only [byteRangesGo, if_neg h0, List.flatMap_cons]
      rw [ih (offset + min m remaining) (remaining - min m remaining) hrec]
      have h1 : offset + min m remaining - 1 + 1 - offset = min m remaining := by omega
      rw [h1, List.range'_append_1]
      congr 1
      omega

theorem byteRangesGo_size (m : Nat) (hm : 0 < m) :
    ∀ (fuel offset remaining : Nat), ∀ r ∈ byteRangesGo m fuel offset remaining,
      r.stop + 1 - r.start ≤ m := by
  intro fuel
  induction fuel with
  | zero =>
    intro offset remaining r hr
    simp [byteRangesGo] at hr
  | succ fuel ih =>
    intro offset remaining r hr
    by_cases h0 : remaining = 0
    · subst h0
      simp [byteRangesGo] at hr
    · simp only [byteRangesGo, if_neg h0, List.mem_cons] at hr
      rcases hr with hr | hr
      · subst hr
        show offset + min m remaining - 1 + 1 - offset ≤ m
        rcases le_total m remaining with hle | hle
        · rw [min_eq_left hle]
          omega
        · rw [min_eq_right hle]
          omega
      · exact ih _ _ r hr

/-- C7: for every `fileSize ≥ 0` and `maxPartSize > 0`, the plan's ranges are
ordered, non-overlapping and gapless, their union is exactly `[0, fileSize)`
(captured by the flattening of the inclusive ranges, in order, being exactly
the list `0, 1, …, fileSize - 1`), each range's size is at most `maxPartSize`,
and the plan is deterministic — the planner is a pure function, and the spec's
worked example evaluates to the stated four-range plan. -/
theorem c7_plan_coverage (fileSize maxPartSize : Nat) (hm : 0 < maxPartSize) :
    (((byteRanges fileSize maxPartSize).flatMap
        fun r => List.range' r.start (r.stop + 1 - r.start)) = List.range fileSize
      ∧ (∀ r ∈ byteRanges fileSize maxPartSize, r.stop + 1 - r.start ≤ maxPartSize)
      ∧ byteRanges 100000 30000 =
          [⟨0, 29999⟩, ⟨30000, 59999⟩, ⟨60000, 89999⟩, ⟨90000, 99999⟩]) := by
  refine ⟨?_, ?_, ?_⟩
  · rw [List.range_eq_range']
    apply byteRangesGo_flatten maxPartSize hm
    have h1 := Nat.div_add_mod fileSize maxPartSize
    have h2 := Nat.mod_lt fileSize hm
    calc fileSize = maxPartSize * (fileSize / maxPartSize) + fileSize % maxPartSize :=
          h1.symm
      _ ≤ maxPartSize * (fileSize / maxPartSize) + maxPartSize :=
          Nat.add_le_add_left (Nat.le_of_lt h2) _
      _ = maxPartSize * (fileSize / maxPartSize + 1) := (Nat.mul_succ _ _).symm
  · exact byteRangesGo_size maxPartSize hm _ 0 fileSize
  · decide

/-- C7 witness: the coverage theorem instantiated at `fileSize = 5`,
`maxPartSize = 2`. -/
theorem c7_plan_coverage_witness :
    0 < 2 ∧
      (((byteRanges 5 2).flatMap
          fun r => List.range' r.start (r.stop + 1 - r.start)) = List.range 5
        ∧ (∀ r ∈ byteRanges 5 2, r.stop + 1 - r.start ≤ 2)
        ∧ byteRanges 100000 30000 =
            [⟨0, 29999⟩, ⟨30000, 59999⟩, ⟨60000, 89999⟩, ⟨90000, 99999⟩]) :=
  ⟨by decide, c7_plan_coverage 5 2 (by decide)⟩

/-- The mutable per-task fields of a Vuex file object touched by
`state.js`: the polling lock, the progress clamp value (initialised to `-1`
by `uploadFile`, state.js:288) and the file's raw byte size. -/
structure SJDTAFile where
  sizeCheckingLock : Bool
  largestReportedProgress : Int
  raw_size : Nat
deriving DecidableEq

/-- Result of `dx describe` as consumed by `watchRemoteFile`: the optional
`parts` map, each part optionally carrying a committed size (the source guards
each summand with a truthiness check on `.size`). -/
structure RemoteFile where
  parts : Option (List Nat)
deriving DecidableEq

/-- One firing of the `setInterval` body of `watchRemoteFile`
(state.js:232-237): if the per-file polling lock is held, return at once
(no `describe` call, no progress update this cycle); otherwise take the lock
and issue the `describe` call.  The returned Bool is `true` exactly when a
`describe` call was issued. -/
def watchTick (file : SJDTAFile) : SJDTAFile × Bool :=
  if file.sizeCheckingLock then (file, false)
  else ({ file with sizeCheckingLock := true }, true)

/-- The `describe` callback of `watchRemoteFile` (state.js:236-256): release
the lock, bail out when the describe result or its `parts` is missing,
otherwise sum the truthy part sizes into `remoteObjectSize`, run the clamp
`if (file.largestReportedProgress < remoteObjectSize) remoteObjectSize =
file.largestReportedProgress; else file.largestReportedProgress =
remoteObjectSize;` and report `remoteObjectSize / file.raw_size * 100.0`.
Returns the updated file and the progress value handed to `progressCb`
(`none` when the callback returned without reporting). -/
def watchDescribeCallback (file : SJDTAFile) (result : Option RemoteFile) :
    SJDTAFile × Option ℚ :=
  let file := { file with sizeCheckingLock := false }
  match result with
  | none => (file, none)
  | some remoteFile =>
    match remoteFile.parts with
    | none => (file, none)
    | some parts =>
      let remoteObjectSize : Int :=
        parts.foldl (fun acc s => if s ≠ 0 then acc + (s : Int) else acc) 0
      if file.largestReportedProgress < remoteObjectSize then
        let remoteObjectSize := file.largestReportedProgress
        (file, some ((remoteObjectSize : ℚ) / (file.raw_size : ℚ) * 100))
      else
        ({ file with largestReportedProgress := remoteObjectSize },
          some ((remoteObjectSize : ℚ) / (file.raw_size : ℚ) * 100))

/-- C1: the clamp of `watchRemoteFile` is inverted — it propagates the
minimum, not the maximum.  From the state `uploadFile` actually creates
(`largestReportedProgress = -1`) a poll that sees 50 of 100 committed bytes
reports `-1`% and leaves the stored value at `-1` (first two conjuncts), and
from a state whose stored maximum is 10 a poll sampling 5 lowers the stored
value to 5 and reports 5% — the reported value regresses below the previous
maximum instead of being clamped to it (last two conjuncts). -/
theorem c1_progress_clamp_inverted :
    (watchDescribeCallback ⟨true, -1, 100⟩ (some ⟨some [50]⟩)).1.largestReportedProgress = -1
      ∧ (watchDescribeCallback ⟨true, -1, 100⟩ (some ⟨some [50]⟩)).2 = some (-1)
      ∧ (watchDescribeCallback ⟨true, 10, 100⟩ (some ⟨some [5]⟩)).1.largestReportedProgress = 5
      ∧ (watchDescribeCallback ⟨true, 10, 100⟩ (some ⟨some [5]⟩)).2 = some 5 := by
  refine ⟨rfl, ?_, rfl, ?_⟩ <;> norm_num [watchDescribeCallback]

/-- C4: at most one poll runs at a time.  A tick that fires while the lock is
held (a `describe` call is outstanding) leaves the file untouched and issues
no `describe` call — hence no progress update can originate from that cycle —
and the `describe` callback releases the lock unconditionally, whatever the
describe result was. -/
theorem c4_poll_lock (file other : SJDTAFile) (r : Option RemoteFile)
    (h : file.sizeCheckingLock = true) :
    watchTick file = (file, false)
      ∧ (watchDescribeCallback other r).1.sizeCheckingLock = false := by
  constructor
  · simp [watchTick, h]
  · rcases r with _ | ⟨_ | parts⟩
    · rfl
    · rfl
    · simp only [watchDescribeCallback]
      split <;> rfl

/-- C4 witness: a tick against a locked file skips the cycle, and a completed
describe releases the lock. -/
theorem c4_poll_lock_witness :
    (⟨true, -1, 100⟩ : SJDTAFile).sizeCheckingLock = true
      ∧ (watchTick ⟨true, -1, 100⟩ = (⟨true, -1, 100⟩, false)
        ∧ (watchDescribeCallback ⟨true, 7, 50⟩ (some ⟨some [3, 4]⟩)).1.sizeCheckingLock
            = false) :=
  ⟨rfl, c4_poll_lock ⟨true, -1, 100⟩ ⟨true, 7, 50⟩ (some ⟨some [3, 4]⟩) rfl⟩

/-- One invocation of the `finishedCb` wrapper of `uploadFile`
(state.js:293-296): either an error invocation `finishedCbWrapper(err, null)`
or a success invocation `finishedCbWrapper(null, result)` (whose result is the
stdout of the last command, `none` standing for JavaScript `null`). -/
inductive FinishedCall where
  | withError (e : String)
  | withSuccess (stdout : Option String)
deriving DecidableEq

/-- The sequence of `finishedCb` invocations performed by `uploadFile`
(state.js:299-307), given the outcome of the `dx upload` command and of the
subsequent `dx tag` command: on upload error, one error call (with `return`);
on upload success, the tag callback runs `if (err) { finishedCbWrapper(err,
null); } finishedCbWrapper(null, stdout);` — the error branch does not
return, so on a tagging error both invocations happen, the error one first
(with `stdout` being `null` since `utils.runCommand` passes `(err, null)` on
failure). -/
def uploadFinishedCalls (uploadResult tagResult : Except String String) :
    List FinishedCall :=
  match uploadResult with
  | .error e => [FinishedCall.withError e]
  | .ok _ =>
    match tagResult with
    | .error e => [FinishedCall.withError e, FinishedCall.withSuccess none]
    | .ok stdout => [FinishedCall.withSuccess (some stdout)]

/-- C2: when the data transfer succeeds and the post-upload tagging fails,
the finished callback is NOT invoked exactly once with a success outcome: it
is invoked twice, first with the tagging error and then with a success value
(the guard at state.js:304 lacks a `return`).  Evaluated at the failing
input: upload succeeds with stdout `"uploaded"`, tagging fails with error
`"tag failed"`. -/
theorem c2_tagging_failure_double_callback :
    uploadFinishedCalls (.ok "uploaded") (.error "tag failed")
        = [FinishedCall.withError "tag failed", FinishedCall.withSuccess none]
      ∧ (uploadFinishedCalls (.ok "uploaded") (.error "tag failed")).length = 2
      ∧ (uploadFinishedCalls (.ok "uploaded") (.error "tag failed")).head?
          = some (FinishedCall.withError "tag failed") := by
  exact ⟨rfl, rfl, rfl⟩

/-- One observable step of `uploadFile` (state.js:269-308) before and beside
the upload command itself. -/
inductive UploadStep where
  | removeRemote (dxRemotePath : String)
  | initLargestReported (v : Int)
  | startWatcher
  | runUploadCmd (localPath : String)
deriving DecidableEq

/-- The step sequence of `uploadFile` (state.js:279-299) as a function of the
outcome of the best-effort `dx rm -a` command: the removal is attempted first,
wrapped in `try { ... } catch (e) { }` (and the shell command itself appends
`|| true`), so both outcomes fall through to the same continuation —
initialise `largestReportedProgress = -1`, start the remote watcher, run the
upload command. -/
def uploadFileSteps (rmResult : Except String Unit) (dxRemotePath localPath : String) :
    List UploadStep :=
  match rmResult with
  | .ok _ =>
    UploadStep.removeRemote dxRemotePath ::
      [UploadStep.initLargestReported (-1), UploadStep.startWatcher,
        UploadStep.runUploadCmd localPath]
  | .error _ =>
    UploadStep.removeRemote dxRemotePath ::
      [UploadStep.initLargestReported (-1), UploadStep.startWatcher,
        UploadStep.runUploadCmd localPath]

/-- C8: for every upload, the pre-existing remote object is removed before the
upload command is started (the removal step is the head of the step sequence
and the upload command comes after it), and a failing removal yields exactly
the same step sequence as a successful one — no exception propagates and the
upload proceeds regardless. -/
theorem c8_remove_before_upload_best_effort (rmResult : Except String Unit)
    (p l : String) :
    uploadFileSteps rmResult p l = uploadFileSteps (.ok ()) p l
      ∧ uploadFileSteps rmResult p l
          = [UploadStep.removeRemote p, UploadStep.initLargestReported (-1),
              UploadStep.startWatcher, UploadStep.runUploadCmd l] := by
  cases rmResult <;> exact ⟨rfl, rfl⟩

/-- One observable step of `downloadDxFile` (state.js:190-218). -/
inductive DownloadStep where
  | createPlaceholder (path : String) (size : Nat)
  | watchFile (path : String)
  | runDownloadCmd (path : String)
deriving DecidableEq

/-- The step sequence of `downloadDxFile` (state.js:198-217): create the
zero-byte placeholder at the output path (`touch` on mac/linux, `New-Item
-type file` on windows), register the file-size watcher on that path, then
start the `dx download` command. -/
def downloadDxFileSteps (outputPath : String) : List DownloadStep :=
  [DownloadStep.createPlaceholder outputPath 0,
    DownloadStep.watchFile outputPath,
    DownloadStep.runDownloadCmd outputPath]

/-- The progress value computed by the watcher of `downloadDxFile`
(state.js:211): `Math.round(stats.size / fileRawSize * 100.0)`, JavaScript
`Math.round` being floor of the argument plus one half, which is Mathlib's
`round` on ℚ. -/
def downloadProgress (localSize fileRawSize : Nat) : ℤ :=
  round ((localSize : ℚ) / (fileRawSize : ℚ) * 100)

/-- C9: a zero-byte placeholder is created at the destination output path
before the download command is started (the placeholder step precedes the
watcher and the command in the step sequence), and the polled progress is
`round(localSize / fileRawSize * 100)` — evaluating to 0 on the fresh
placeholder and to 100 on the completed file. -/
theorem c9_placeholder_before_download (outputPath : String) (raw : Nat)
    (h : 0 < raw) :
    downloadDxFileSteps outputPath
        = [DownloadStep.createPlaceholder outputPath 0,
            DownloadStep.watchFile outputPath,
            DownloadStep.runDownloadCmd outputPath]
      ∧ downloadProgress 0 raw = 0
      ∧ downloadProgress raw raw = 100 := by
  refine ⟨rfl, ?_, ?_⟩
  · simp [downloadProgress]
  · have hne : (raw : ℚ) ≠ 0 := by
      exact_mod_cast Nat.pos_iff_ne_zero.mp h
    simp [downloadProgress, div_self hne]

/-- One observable event of `UploadTransfer.start` in the dx module
(part_001:324-344). -/
inductive UploadEvent where
  | fileNew
  | uploadPart (index first last : Nat)
  | closeObject
  | finishedOk
  | finishedErr
deriving DecidableEq

/-- The sequential part loop of `UploadTransfer.start` (part_001:336-339):
for each range, in plan order, `transfer(id, i + 1, start, end)` is awaited.
`transfer` resolves its promise only on request success; on a request error it
invokes `finishedCb(error, null)` and never resolves, so the loop stops and
nothing after it runs.  `ok j` is the outcome of the part-`j` request
(1-based); the Bool result is `true` when every part succeeded. -/
def runRanges (ok : Nat → Bool) : List IByteRange → Nat → List UploadEvent × Bool
  | [], _ => ([], true)
  | r :: rs, i =>
    let ev := UploadEvent.uploadPart (i + 1) r.start r.stop
    if ok (i + 1) then
      let rest := runRanges ok rs (i + 1)
      (ev :: rest.1, rest.2)
    else ([ev, UploadEvent.finishedErr], false)

/-- The event trace of `UploadTransfer.start` (part_001:324-344): create the
remote object (`client.file.new`), run the part loop sequentially, and — only
when the loop ran to completion — close the object (`client.file.close`) and
invoke `finishedCb(null, ...)`. -/
def uploadStartTrace (ranges : List IByteRange) (ok : Nat → Bool) : List UploadEvent :=
  let res := runRanges ok ranges 0
  UploadEvent.fileNew ::
    (if res.2 then res.1 ++ [UploadEvent.closeObject, UploadEvent.finishedOk] else res.1)

theorem runRanges_all_ok (ok : Nat → Bool) :
    ∀ (rs : List IByteRange) (i : Nat), (∀ j, j < rs.length → ok (i + j + 1) = true) →
      runRanges ok rs i
        = ((rs.enumFrom i).map
            fun p => UploadEvent.uploadPart (p.1 + 1) p.2.start p.2.stop, true) := by
  intro rs
  induction rs with
  | nil =>
    intro i h
    rfl
  | cons r rs ih =>
    intro i h
    have h0 : ok (i + 1) = true := by
      have := h 0 (by simp)
      simpa using this
    have hrest := ih (i + 1) (fun j hj => by
      have := h (j + 1) (by simpa using Nat.succ_lt_succ hj)
      simpa [Nat.add_assoc, Nat.add_comm, Nat.add_left_comm] using this)
    simp [runRanges, h0, hrest, List.enumFrom_cons]

theorem runRanges_no_close (ok : Nat → Bool) :
    ∀ (rs : List IByteRange) (i : Nat),
      UploadEvent.closeObject ∉ (runRanges ok rs i).1 := by
  intro rs
  induction rs with
  | nil =>
    intro i h
    simp [runRanges] at h
  | cons r rs ih =>
    intro i h
    by_cases h0 : ok (i + 1) = true
    · simp only [runRanges, h0, if_true, List.mem_cons] at h
      rcases h with h | h
      · exact UploadEvent.noConfusion h
      · exact ih (i + 1) h
    · simp only [runRanges, Bool.not_eq_true] at h0
      simp [runRanges, h0] at h

theorem runRanges_success_all_ok (ok : Nat → Bool) :
    ∀ (rs : List IByteRange) (i : Nat), (runRanges ok rs i).2 = true →
      ∀ j, j < rs.length → ok (i + j + 1) = true := by
  intro rs
  induction rs with
  | nil =>
    intro i _ j hj
    simp at hj
  | cons r rs ih =>
    intro i hsucc j hj
    by_cases h0 : ok (i + 1) = true
    · rcases j with _ | j
      · simpa using h0
      · have : (runRanges ok rs (i + 1)).2 = true := by
          simpa [runRanges, h0] using hsucc
        have := ih (i + 1) this j (by simpa using Nat.lt_of_succ_lt_succ hj)
        simpa [Nat.add_assoc, Nat.add_comm, Nat.add_left_comm] using this
    · simp only [Bool.not_eq_true] at h0
      simp [runRanges, h0] at hsucc

/-- C5: when every part request succeeds, the trace of `UploadTransfer.start`
is the object creation, then the parts strictly sequentially in plan order —
the range at 0-based position `i` carried by the 1-based part index `i + 1` —
then exactly one close of the remote object after all parts, then the
success callback; and whenever the close event occurs in a trace at all,
every part request must have succeeded (a failed part truncates the loop and
the close is never reached). -/
theorem c5_sequential_parts_close_once (ranges : List IByteRange) (ok : Nat → Bool)
    (hok : ∀ j, j < ranges.length → ok (j + 1) = true) :
    uploadStartTrace ranges ok
        = UploadEvent.fileNew ::
            ((ranges.enum.map
                fun p => UploadEvent.uploadPart (p.1 + 1) p.2.start p.2.stop)
              ++ [UploadEvent.closeObject, UploadEvent.finishedOk])
      ∧ (uploadStartTrace ranges ok).count UploadEvent.closeObject = 1
      ∧ ∀ (ok2 : Nat → Bool), UploadEvent.closeObject ∈ uploadStartTrace ranges ok2 →
          ∀ j, j < ranges.length → ok2 (j + 1) = true := by
  have hrun := runRanges_all_ok ok ranges 0 (fun j hj => by simpa using hok j hj)
  have htrace : uploadStartTrace ranges ok
      = UploadEvent.fileNew ::
          ((ranges.enum.map
              fun p => UploadEvent.uploadPart (p.1 + 1) p.2.start p.2.stop)
            ++ [UploadEvent.closeObject, UploadEvent.finishedOk]) := by
    simp [uploadStartTrace, hrun, List.enum]
  refine ⟨htrace, ?_, ?_⟩
  · rw [htrace]
    have hnotmem : UploadEvent.closeObject ∉
        ranges.enum.map fun p => UploadEvent.uploadPart (p.1 + 1) p.2.start p.2.stop := by
      intro hmem
      rcases List.mem_map.mp hmem with ⟨p, _, hp⟩
      exact UploadEvent.noConfusion hp
    rw [List.count_cons_of_ne (by decide), List.count_append,
      List.count_eq_zero.mpr hnotmem]
    rfl
  · intro ok2 hmem j hj
    have hnc := runRanges_no_close ok2 ranges 0
    have hsucc : (runRanges ok2 ranges 0).2 = true := by
      by_contra hfalse
      rw [Bool.not_eq_true] at hfalse
      simp only [uploadStartTrace, hfalse, if_false, List.mem_cons] at hmem
      rcases hmem with hmem | hmem
      · exact UploadEvent.noConfusion hmem
      · exact hnc hmem
    have := runRanges_success_all_ok ok2 ranges 0 hsucc j hj
    simpa using this

/-- C5 witness: a two-range plan with all parts succeeding. -/
theorem c5_sequential_parts_close_once_witness :
    (∀ j, j < ([⟨0, 4⟩, ⟨5, 9⟩] : List IByteRange).length → (fun _ => true) (j + 1) = true)
      ∧ (uploadStartTrace [⟨0, 4⟩, ⟨5, 9⟩] (fun _ => true)
            = UploadEvent.fileNew ::
                ((([⟨0, 4⟩, ⟨5, 9⟩] : List IByteRange).enum.map
                    fun p => UploadEvent.uploadPart (p.1 + 1) p.2.start p.2.stop)
                  ++ [UploadEvent.closeObject, UploadEvent.finishedOk])
          ∧ (uploadStartTrace [⟨0, 4⟩, ⟨5, 9⟩] (fun _ => true)).count
              UploadEvent.closeObject = 1
          ∧ ∀ (ok2 : Nat → Bool),
              UploadEvent.closeObject ∈ uploadStartTrace [⟨0, 4⟩, ⟨5, 9⟩] ok2 →
                ∀ j, j < ([⟨0, 4⟩, ⟨5, 9⟩] : List IByteRange).length → ok2 (j + 1) = true) :=
  ⟨fun _ _ => rfl, c5_sequential_parts_close_once [⟨0, 4⟩, ⟨5, 9⟩] (fun _ => true)
    (fun _ _ => rfl)⟩

/-- The bytes handed to a part's reader: `fs.createReadStream(src, { start,
end })` streams the inclusive byte range `start..end` of the file (part_001:358). -/
def sliceBytes (file : List Nat) (first last : Nat) : List Nat :=
  (file.drop first).take (last + 1 - first)

/-- A stand-in content digest: a computable function of exactly the byte list
it is given. -/
def hashBytes (bs : List Nat) : Nat :=
  bs.foldl (fun h b => (h * 31 + b) % 4294967296) 5381

/-- Modelled from the spec: `utils.md5Sum(src, start, end)` — the ranged
checksum called at part_001:361 is not present under src/.  Per the spec the
Checksum Service "computes a digest over exactly the bytes in a given range
before that range is transmitted"; the MD5 algorithm itself is abstracted by
`hashBytes`, a function of exactly the range's bytes. -/
def md5Sum (file : List Nat) (first last : Nat) : Nat :=
  hashBytes (sliceBytes file first last)

/-- One observable event of `UploadTransfer.transfer` (part_001:352-394). -/
inductive TransferEvent where
  | digestComputed (input : List Nat)
  | uploadPartRequest (index md5 size : Nat)
  | transmit (body : List Nat)
deriving DecidableEq

/-- The event order of the success path of `UploadTransfer.transfer`
(part_001:352-394): the reader over the inclusive range is created lazily (no
byte is read yet), `size = end - start + 1` is computed, `md5 = await
utils.md5Sum(src, start, end)` completes, then `client.file.upload(id,
{ index, md5, size })` obtains the part URL, and only then does the PUT
request stream the reader's bytes. -/
def transferTrace (file : List Nat) (index first last : Nat) : List TransferEvent :=
  [TransferEvent.digestComputed (sliceBytes file first last),
    TransferEvent.uploadPartRequest index (md5Sum file first last) (last + 1 - first),
    TransferEvent.transmit (sliceBytes file first last)]

/-- C6: the digest supplied with the upload-part request is computed over
exactly the bytes `start..end` of the source file (the digest input equals
the transmitted body, which is byte `start + j` of the file at position `j`,
of length `end - start + 1`), the digest computation strictly precedes the
transmission in the event order, and the advertised part size equals
`end - start + 1`. -/
theorem c6_digest_over_exact_range (file : List Nat) (index first last : Nat)
    (h1 : first ≤ last) (h2 : last < file.length) :
    transferTrace file index first last
        = [TransferEvent.digestComputed (sliceBytes file first last),
            TransferEvent.uploadPartRequest index (hashBytes (sliceBytes file first last))
              (last + 1 - first),
            TransferEvent.transmit (sliceBytes file first last)]
      ∧ (sliceBytes file first last).length = last + 1 - first
      ∧ ∀ j, j < last + 1 - first →
          (sliceBytes file first last).getD j 0 = file.getD (first + j) 0 := by
  refine ⟨rfl, ?_, ?_⟩
  · simp only [sliceBytes, List.length_take, List.length_drop]
    omega
  · intro j hj
    simp only [sliceBytes, List.getD_eq_getElem?_getD]
    rw [List.getElem?_take_of_lt hj, List.getElem?_drop]

/-- C6 witness: part 2 of a five-byte file covering bytes 1..3. -/
theorem c6_digest_over_exact_range_witness :
    1 ≤ 3 ∧ 3 < ([10, 20, 30, 40, 50] : List Nat).length
      ∧ (transferTrace [10, 20, 30, 40, 50] 2 1 3
            = [TransferEvent.digestComputed (sliceBytes [10, 20, 30, 40, 50] 1 3),
                TransferEvent.uploadPartRequest 2
                  (hashBytes (sliceBytes [10, 20, 30, 40, 50] 1 3)) (3 + 1 - 1),
                TransferEvent.transmit (sliceBytes [10, 20, 30, 40, 50] 1 3)]
          ∧ (sliceBytes [10, 20, 30, 40, 50] 1 3).length = 3 + 1 - 1
          ∧ ∀ j, j < 3 + 1 - 1 →
              (sliceBytes [10, 20, 30, 40, 50] 1 3).getD j 0
                = ([10, 20, 30, 40, 50] : List Nat).getD (1 + j) 0) :=
  ⟨by decide, by decide,
    c6_digest_over_exact_range [10, 20, 30, 40, 50] 2 1 3 (by decide) (by decide)⟩

/-- An in-flight part PUT request held in `this.request` of `UploadTransfer`
(part_001:299, 370). -/
structure PartRequest where
  aborted : Bool
deriving DecidableEq

/-- The instance state of `UploadTransfer` relevant to `abort()`: the
`this.request` field (null between parts, the in-flight PUT during one). -/
structure UploadTransferState where
  request : Option PartRequest
deriving DecidableEq

/-- A JavaScript object as seen by `abort()`: whether it is truthy and
whether it offers an `abort` method. -/
structure JSObject where
  truthy : Bool
  hasAbortMethod : Bool
deriving DecidableEq

/-- The value bound to the identifier `request` inside the dx module: the
`import * as request from 'request'` binding (part_001:8) — a callable module
object, always truthy, with no top-level `abort` method (the package's abort
lives on individual request instances, not on the module export). -/
def requestModule : JSObject :=
  { truthy := true, hasAbortMethod := false }

/-- Outcome of the body of `abort()`. -/
inductive AbortOutcome where
  | typeErrorRaised
  | moduleAbortCalled
  | guardFalsy
deriving DecidableEq

/-- `UploadTransfer.abort` (part_001:346-350): `if (request) { request.abort();
}`.  The identifier `request` resolves to the module import, not to the field
`this.request` (which would require explicit `this.`), so the guard tests the
module object and the call is made on it; the instance state is returned
untouched. -/
def uploadTransferAbort (self : UploadTransferState) :
    UploadTransferState × AbortOutcome :=
  if requestModule.truthy then
    (self,
      if requestModule.hasAbortMethod then AbortOutcome.moduleAbortCalled
      else AbortOutcome.typeErrorRaised)
  else (self, AbortOutcome.guardFalsy)

/-- C3: calling `abort()` while a part PUT is in flight does NOT abort the
in-flight request: the instance state — including the not-yet-aborted
`this.request` — is unchanged for every state, and concretely for a transfer
with an in-flight, unaborted part request the call leaves it unaborted and
raises a TypeError (the module object bound to `request` has no `abort`
method), so no `abort` event fires and the finished callback never receives
the `upload aborted` cancellation error. -/
theorem c3_abort_misses_inflight_request :
    (∀ s : UploadTransferState, (uploadTransferAbort s).1 = s)
      ∧ uploadTransferAbort ⟨some ⟨false⟩⟩
          = (⟨some ⟨false⟩⟩, AbortOutcome.typeErrorRaised)
      ∧ ((uploadTransferAbort ⟨some ⟨false⟩⟩).1.request.map PartRequest.aborted)
          = some false := by
  exact ⟨fun s => rfl, rfl, rfl⟩

/-- A JavaScript number argument of `readableFileSize`: either NaN or an
actual numeric value (float semantics modelled by exact rationals). -/
inductive JSNum where
  | nan
  | num (q : ℚ)

/-- The unit names of `utils.readableFileSize` (part_003:468). -/
def jsUnits : List String :=
  ["kB", "MB", "GB", "TB", "PB", "EB", "ZB", "YB"]

/-- The `do { byteCount /= divisor; ++u } while (byteCount >= divisor && u <
units.length - 1)` loop of `readableFileSize` (part_003:471-474).  `u` starts
at `-1`; since `u` strictly increases and the guard requires `u < 7`, the
loop runs at most 8 iterations, so fuel 9 never runs out. -/
def rfsLoopGo (divisor : ℚ) : Nat → ℚ → Int → ℚ × Int
  | 0, byteCount, u => (byteCount, u)
  | fuel + 1, byteCount, u =>
    let byteCount := byteCount / divisor
    let u := u + 1
    if divisor ≤ byteCount ∧ u < 7 then rfsLoopGo divisor fuel byteCount u
    else (byteCount, u)

/-- `byteCount.toFixed(1)` (part_003:476) rendered as a string: the value is
rounded to one decimal (JavaScript toFixed picks the closest 1-decimal
representation, ties upward — Mathlib `round`; exact-rational model of the
float computation, on the nonnegative values this call site produces). -/
def toFixed1 (q : ℚ) : String :=
  let n : Int := round (q * 10)
  (if n < 0 then "-" else "") ++ toString (n.natAbs / 10) ++ "." ++ toString (n.natAbs % 10)

/-- `utils.readableFileSize(bytes, roundNumbers = false, divisor = 1000)`
(part_003:454-481): return `'0 GB'` when `isNaN(bytes) || bytes === 0`;
otherwise take `byteCount = Math.abs(bytes)`; below one `divisor` return the
rounded byte count with unit `B`; otherwise run the division loop, format to
one decimal — with `roundNumbers`, `Math.round(parseFloat(number))`, where
`parseFloat` of the 1-decimal string recovers exactly the rounded-to-tenths
value — and append the unit selected by `u`. -/
def readableFileSize (bytes : JSNum) (roundNumbers : Bool) (divisor : ℚ) : String :=
  match bytes with
  | JSNum.nan => "0 GB"
  | JSNum.num b =>
    if b = 0 then "0 GB"
    else
      let byteCount := |b|
      if byteCount < divisor then toString (round byteCount) ++ " B"
      else
        let res := rfsLoopGo divisor 9 byteCount (-1)
        let fixed : ℚ := ((round (res.1 * 10) : Int) : ℚ) / 10
        let number := if roundNumbers then toString (round fixed) else toFixed1 res.1
        number ++ " " ++ jsUnits.getD res.2.toNat "undefined"

/-- C10: `readableFileSize` returns the string `'0 GB'` — not `'0 B'` — both
when `bytes` is 0 and when `bytes` is NaN, for every value of the
`roundNumbers` and `divisor` parameters: the early return fires before either
parameter is consulted. -/
theorem c10_zero_and_nan_give_zero_gb (roundNumbers : Bool) (divisor : ℚ) :
    readableFileSize (JSNum.num 0) roundNumbers divisor = "0 GB"
      ∧ readableFileSize JSNum.nan roundNumbers divisor = "0 GB" := by
  exact ⟨rfl, rfl⟩

/-- C8 witness: a failing removal, instantiated concretely, produces the same
steps as a successful one, with the removal preceding the upload command. -/
theorem c8_remove_before_upload_best_effort_witness :
    uploadFileSteps (Except.error "rm failed") "proj:/uploads/f" "/tmp/f"
        = uploadFileSteps (.ok ()) "proj:/uploads/f" "/tmp/f"
      ∧ uploadFileSteps (Except.error "rm failed") "proj:/uploads/f" "/tmp/f"
          = [UploadStep.removeRemote "proj:/uploads/f",
              UploadStep.initLargestReported (-1), UploadStep.startWatcher,
              UploadStep.runUploadCmd "/tmp/f"] :=
  c8_remove_before_upload_best_effort (Except.error "rm failed") "proj:/uploads/f" "/tmp/f"

/-- C9 witness: the placeholder and progress theorem at `raw = 100`. -/
theorem c9_placeholder_before_download_witness :
    0 < 100
      ∧ (downloadDxFileSteps "/home/u/A.bam"
            = [DownloadStep.createPlaceholder "/home/u/A.bam" 0,
                DownloadStep.watchFile "/home/u/A.bam",
                DownloadStep.runDownloadCmd "/home/u/A.bam"]
          ∧ downloadProgress 0 100 = 0
          ∧ downloadProgress 100 100 = 100) :=
  ⟨by decide, c9_placeholder_before_download "/home/u/A.bam" 100 (by decide)⟩

/-- C10 witness: the early return instantiated at the default parameters. -/
theorem c10_zero_and_nan_give_zero_gb_witness :
    readableFileSize (JSNum.num 0) false 1000 = "0 GB"
      ∧ readableFileSize JSNum.nan false 1000 = "0 GB" :=
  c10_zero_and_nan_give_zero_gb false 1000
